import Mathlib

/-!
Verification of the Kerr black-hole null-geodesic renderer.

The floating-point code is embedded shallowly over the real numbers: every
`f64` becomes a real number, `f64::sqrt` becomes `Real.sqrt`, `powf` becomes
`Real.rpow`, trigonometric functions become their `Real` counterparts, and the
machine integers (`u32`, `u8`, `usize`) become `Nat`.  Assertions become
`Option` results.  Definitions follow the Rust sources function by function;
file and line references are given next to each definition.
-/

namespace KerrSim

noncomputable section

open Real

/-! ## Coordinates (src/coordinates.rs) -/

/-- Kerr scalar Σ = r² + a² cos²θ   (coordinates.rs, `sigma`). -/
def sigma (r theta a : ℝ) : ℝ :=
  let cos_theta := Real.cos theta
  r * r + a * a * cos_theta * cos_theta

/-- Kerr scalar Δ = r² − 2Mr + a²   (coordinates.rs, `delta`). -/
def delta (r m a : ℝ) : ℝ :=
  r * r - 2.0 * m * r + a * a

/-- Model of `f64::atan2` (four-quadrant arctangent), used by
`cartesian_to_bl`.  Matches the IEEE definition on non-NaN inputs. -/
def atan2 (y x : ℝ) : ℝ :=
  if 0 < x then Real.arctan (y / x)
  else if x < 0 then
    (if 0 ≤ y then Real.arctan (y / x) + Real.pi else Real.arctan (y / x) - Real.pi)
  else
    (if 0 < y then Real.pi / 2 else if y < 0 then -(Real.pi / 2) else 0)

/-- Model of `f64::clamp`. -/
def clampR (x lo hi : ℝ) : ℝ := max lo (min x hi)

/-- Cartesian → Boyer–Lindquist conversion (coordinates.rs, `cartesian_to_bl`).
Solves the Kerr quadratic r² = ½[(x²+y²+z²−a²) + √((x²+y²+z²−a²)² + 4a²z²)],
then θ = arccos(z/r) (guarded for tiny r, clamped), φ = atan2(y, x). -/
def cartesian_to_bl (x y z a : ℝ) : ℝ × ℝ × ℝ :=
  let rho2 := x * x + y * y
  let z2 := z * z
  let a2 := a * a
  let sum := rho2 + z2 - a2
  let r2 := 0.5 * (sum + Real.sqrt (sum * sum + 4.0 * a2 * z2))
  let r := Real.sqrt r2
  let cos_theta := if r > 1e-10 then z / r else 0
  let theta := Real.arccos (clampR cos_theta (-1.0) 1.0)
  let phi := atan2 y x
  (r, theta, phi)

/-- Boyer–Lindquist → Cartesian conversion (coordinates.rs, `bl_to_cartesian`):
x = √(r²+a²) sinθ cosφ, y = √(r²+a²) sinθ sinφ, z = r cosθ. -/
def bl_to_cartesian (r theta phi a : ℝ) : ℝ × ℝ × ℝ :=
  let a2 := a * a
  let r2 := r * r
  let rho := Real.sqrt (r2 + a2)
  let sin_theta := Real.sin theta
  let cos_theta := Real.cos theta
  let sin_phi := Real.sin phi
  let cos_phi := Real.cos phi
  (rho * sin_theta * cos_phi, rho * sin_theta * sin_phi, r * cos_theta)

/-! ## Data types (src/types.rs) -/

/-- Direction of orbital motion relative to the black-hole spin
(types.rs, `OrbitDirection`). -/
inductive OrbitDirection
  | Prograde
  | Retrograde
deriving DecidableEq

/-- A Kerr black hole with mass M and spin a (types.rs, `BlackHole`). -/
structure BlackHole where
  mass : ℝ
  spin : ℝ

/-- Event horizon radius r₊ = M + √(M² − a²) (types.rs, `horizon_radius`). -/
def BlackHole.horizon_radius (bh : BlackHole) : ℝ :=
  bh.mass + Real.sqrt (bh.mass * bh.mass - bh.spin * bh.spin)

/-- Schwarzschild test `self.spin.abs() < 1e-10` (types.rs, `is_schwarzschild`). -/
def BlackHole.is_schwarzschild (bh : BlackHole) : Prop :=
  |bh.spin| < 1e-10

/-- ISCO radius by the Bardeen–Press–Teukolsky formula
(types.rs, `isco_radius`).  Early-returns 6M in the Schwarzschild case;
otherwise
Z₁ = 1 + (1−a²)^⅓[(1+a)^⅓ + (1−a)^⅓], Z₂ = √(3a² + Z₁²),
r = M(3 + Z₂ ± √((3−Z₁)(3+Z₁+2Z₂))) with − for prograde, + for retrograde
(a normalised to a/M). -/
def BlackHole.isco_radius (bh : BlackHole) (direction : OrbitDirection) : ℝ :=
  let m := bh.mass
  let a := bh.spin
  if |a| < 1e-10 then 6.0 * m
  else
    let a_norm := a / m
    let a2 := a_norm * a_norm
    let z1 := 1.0 + (1.0 - a2) ^ ((1.0 : ℝ) / 3.0)
      * ((1.0 + a_norm) ^ ((1.0 : ℝ) / 3.0) + (1.0 - a_norm) ^ ((1.0 : ℝ) / 3.0))
    let z2 := Real.sqrt (3.0 * a2 + z1 * z1)
    let sign : ℝ := match direction with
      | OrbitDirection.Prograde => -1.0
      | OrbitDirection.Retrograde => 1.0
    m * (3.0 + z2 + sign * Real.sqrt ((3.0 - z1) * (3.0 + z1 + 2.0 * z2)))

/-- Render configuration (types.rs, `RenderConfig`).  `width`/`height` are
`u32`, `max_orders` is `u8`; all are modelled as `Nat`. -/
structure RenderConfig where
  width : Nat
  height : Nat
  max_orders : Nat
deriving DecidableEq

/-- Constructor `RenderConfig::new` (types.rs lines 370-374).  The two
`assert!`s — `width > 0 && height > 0` and
`max_orders > 0 && max_orders <= 3` — are modelled as `none` (panic). -/
def RenderConfig.new (width height max_orders : Nat) : Option RenderConfig :=
  if 0 < width ∧ 0 < height then
    if 0 < max_orders ∧ max_orders ≤ 3 then
      some ⟨width, height, max_orders⟩
    else none
  else none

/-- Photon state: Boyer–Lindquist position plus the conserved quantities
(E, L_z, Q) (src/geodesic.rs, `PhotonState`). -/
structure PhotonState where
  r : ℝ
  theta : ℝ
  phi : ℝ
  energy : ℝ
  angular_momentum : ℝ
  carter_q : ℝ

/-! ## Disc emissivity model (src/disc_model.rs) -/

/-- Novikov–Thorne emissivity profile (disc_model.rs lines 18-34):
0 inside the ISCO, otherwise r⁻³ · (1 − √(r_ISCO/r)) · (r_ISCO³ · 2). -/
def novikov_thorne_emissivity (r r_isco : ℝ) : ℝ :=
  if r < r_isco then 0
  else
    let r_ratio := r_isco / r
    let falloff := r ^ ((-3.0 : ℝ))
    let isco_term := 1.0 - Real.sqrt r_ratio
    let normalization := r_isco ^ ((3.0 : ℝ)) * 2.0
    falloff * isco_term * normalization

/-- Emissivity lookup table (disc_model.rs lines 47-62): `samples` values of
the profile at radii linearly spaced from `r_min` to `r_max`. -/
def generate_flux_lut (r_min r_max r_isco : ℝ) (samples : Nat) : List ℝ :=
  (List.range samples).map (fun (i : Nat) =>
    let t : ℝ := (i : ℝ) / ((samples - 1 : Nat) : ℝ)
    let r := r_min + t * (r_max - r_min)
    novikov_thorne_emissivity r r_isco)

/-! ## Geodesic equations of motion (src/geodesic.rs) -/

/-- Radial equation dr/dλ = sign · √R(r) / Σ with
R(r) = [(r²+a²)E − aL_z]² − Δ[Q + (L_z−aE)²]; returns 0 when R < 0
(geodesic.rs, `geodesic_dr_dlambda`). -/
def geodesic_dr_dlambda (r theta energy angular_momentum carter_q m a sign : ℝ) : ℝ :=
  let r2 := r * r
  let a2 := a * a
  let delta_val := delta r m a
  let term1 := (r2 + a2) * energy - a * angular_momentum
  let term1_sq := term1 * term1
  let term2 := angular_momentum - a * energy
  let term2_sq := term2 * term2
  let r_potential := term1_sq - delta_val * (carter_q + term2_sq)
  let sigma_val := sigma r theta a
  if r_potential < 0 then 0
  else sign * Real.sqrt r_potential / sigma_val

/-- Polar equation dθ/dλ = sign · √Θ(θ) / Σ with
Θ(θ) = Q + a²E²cos²θ − (L_z²/sin²θ)cos²θ; returns 0 near the poles
(sin²θ < 1e-10) and at turning points (Θ < 0)
(geodesic.rs, `geodesic_dtheta_dlambda`). -/
def geodesic_dtheta_dlambda (r theta energy angular_momentum carter_q a sign : ℝ) : ℝ :=
  let a2 := a * a
  let cos_theta := Real.cos theta
  let sin_theta := Real.sin theta
  let cos2_theta := cos_theta * cos_theta
  let sin2_theta := sin_theta * sin_theta
  if sin2_theta < 1e-10 then 0
  else
    let term1 := a2 * energy * energy * cos2_theta
    let term2 := (angular_momentum * angular_momentum / sin2_theta) * cos2_theta
    let theta_potential := carter_q + term1 - term2
    let sigma_val := sigma r theta a
    if theta_potential < 0 then 0
    else sign * Real.sqrt theta_potential / sigma_val

/-- Azimuthal equation dφ/dλ = [aE(r²+a²−Δ) + L_z(1−Δ/Σ)/sin²θ] / Σ;
returns 0 near the poles (geodesic.rs, `geodesic_dphi_dlambda`). -/
def geodesic_dphi_dlambda (r theta energy angular_momentum m a : ℝ) : ℝ :=
  let r2 := r * r
  let a2 := a * a
  let sin_theta := Real.sin theta
  let sin2_theta := sin_theta * sin_theta
  if sin2_theta < 1e-10 then 0
  else
    let delta_val := delta r m a
    let sigma_val := sigma r theta a
    let frame_drag := a * energy * (r2 + a2 - delta_val)
    let ang_mom_term := angular_momentum * (1.0 - delta_val / sigma_val) / sin2_theta
    (frame_drag + ang_mom_term) / sigma_val

/-- Null-geodesic invariant |g_μν k^μ k^ν| used as a per-crossing quality
metric (geodesic.rs, `compute_null_invariant`). -/
def compute_null_invariant
    (r theta energy angular_momentum carter_q m a sign_r sign_theta : ℝ) : ℝ :=
  let r2 := r * r
  let a2 := a * a
  let st := Real.sin theta
  let st2 := st * st
  let sg := sigma r theta a
  let dl := delta r m a
  let g_tt := -(1.0 - 2.0 * m * r / sg)
  let g_tphi := -2.0 * m * r * a * st2 / sg
  let g_rr := sg / dl
  let g_thth := sg
  let g_phph := ((r2 + a2) * (r2 + a2) - a2 * dl * st2) * st2 / sg
  let term1 := (r2 + a2) * energy - a * angular_momentum
  let term2 := angular_momentum - a * energy
  let r_pot := term1 * term1 - dl * (carter_q + term2 * term2)
  let cos2 := Real.cos theta * Real.cos theta
  let theta_pot := carter_q + a2 * energy * energy * cos2
      - (angular_momentum * angular_momentum / max st2 1e-300) * cos2
  let kr := if r_pot > 0 then sign_r * (Real.sqrt r_pot / sg) else 0
  let kth := if theta_pot > 0 then sign_theta * (Real.sqrt theta_pot / sg) else 0
  let det := g_tt * g_phph - g_tphi * g_tphi
  let kt := (-energy * g_phph - g_tphi * angular_momentum) / det
  let kphi := (g_tphi * energy + g_tt * angular_momentum) / det
  let ni := g_tt * kt * kt + 2.0 * g_tphi * kt * kphi + g_rr * kr * kr
      + g_thth * kth * kth + g_phph * kphi * kphi
  |ni|

/-- The circular-orbit normalisation factor g_tt + 2Ω g_tφ + Ω² g_φφ from
`compute_redshift_factor` (geodesic.rs lines 395-407). -/
def redshift_norm_factor (r theta m a omega_disc : ℝ) : ℝ :=
  let r2 := r * r
  let a2 := a * a
  let sigma_val := sigma r theta a
  let sin2_theta := Real.sin theta ^ 2
  let g_tt := -(1.0 - 2.0 * m * r / sigma_val)
  let g_t_phi := -2.0 * m * r * a * sin2_theta / sigma_val
  let g_phi_phi := (r2 + a2 + 2.0 * m * r * a2 * sin2_theta / sigma_val) * sin2_theta
  g_tt + 2.0 * omega_disc * g_t_phi + omega_disc * omega_disc * g_phi_phi

/-- Disc-material time component u^t: 1/√(−norm) when the normalisation
factor is negative, with fallback u^t = 1 otherwise
(geodesic.rs lines 410-415). -/
def redshift_u_t (r theta m a omega_disc : ℝ) : ℝ :=
  let norm_factor := redshift_norm_factor r theta m a omega_disc
  if norm_factor < 0 then 1.0 / Real.sqrt (-norm_factor) else 1.0

/-- Redshift factor g = |−(u^t k_t + u^φ k_φ)| at a disc point
(geodesic.rs, `compute_redshift_factor`). -/
def compute_redshift_factor (r theta energy angular_momentum m a omega_disc : ℝ) : ℝ :=
  let u_t := redshift_u_t r theta m a omega_disc
  let u_phi_contra := omega_disc * u_t
  let k_t_cov := -energy
  let k_phi_cov := angular_momentum
  let redshift := -(u_t * k_t_cov + u_phi_contra * k_phi_cov)
  |redshift|

/-! ## Integration (src/integration.rs) -/

/-- Result of integrating one geodesic for one image order
(src/geodesic.rs, `GeodesicResult`).  Turn counters are `u8`, modelled as
`Nat` (saturation is applied by the driver). -/
inductive GeodesicResult
  | DiscHit (r theta phi energy angular_momentum carter_q impact_parameter
      redshift_factor affine_parameter phi_wraps : ℝ) (order : Nat)
      (null_invariant_error : ℝ) (turns_r turns_theta : Nat)
  | Captured (turns_r turns_theta : Nat)
  | Escaped (turns_r turns_theta : Nat)
  | Aborted (turns_r turns_theta : Nat)

/-- Per-ray integration state (integration.rs, `IntegrationState`). -/
structure IntegrationState where
  r : ℝ
  theta : ℝ
  phi : ℝ
  lambda : ℝ
  initial_phi : ℝ
  sign_r : ℝ
  sign_theta : ℝ

/-- Constructor (integration.rs lines 24-36): λ starts at 0, φ₀ is retained,
sign_r starts at −1 (moving inward), sign_θ is the caller's initial sign. -/
def IntegrationState.new (photon : PhotonState) (initial_sign_theta : ℝ) :
    IntegrationState :=
  { r := photon.r, theta := photon.theta, phi := photon.phi, lambda := 0.0,
    initial_phi := photon.phi, sign_r := -1.0, sign_theta := initial_sign_theta }

/-- Shared Kerr helper quantities (integration.rs, `kerr_helpers`); note the
mass is hardcoded to 1 in Δ here, exactly as in the source. -/
def kerr_helpers (r th a : ℝ) : ℝ × ℝ × ℝ × ℝ × ℝ × ℝ :=
  let ct := Real.cos th
  let st := max |Real.sin th| 1e-300
  let r2 := r * r
  let a2 := a * a
  let rho2 := r2 + a2 * ct * ct
  let delta_val := r2 - 2.0 * r + a2
  (ct, st, r2, a2, rho2, delta_val)

/-- Carter potentials R(r), Θ(θ) with the small-negative clamp to zero
(integration.rs, `carter_potentials`). -/
def carter_potentials (r th a e lz q : ℝ) : ℝ × ℝ :=
  match kerr_helpers r th a with
  | (ct, st, r2, a2, _rho2, delta_val) =>
    let p := e * (r2 + a2) - a * lz
    let k := q + (lz - a * e) * (lz - a * e)
    let big_r := p * p - delta_val * k
    let cot := ct / st
    let theta_pot := q + a2 * e * e * ct * ct - (lz * lz) * cot * cot
    let big_r2 := if big_r < 0 ∧ big_r > -1e-24 then 0 else big_r
    let theta_pot2 := if theta_pot < 0 ∧ theta_pot > -1e-24 then 0 else theta_pot
    (max big_r2 0, max theta_pot2 0)

/-- Interior-stage coupling coefficients of the Dormand–Prince 8(7) tableau
(integration.rs, `DormandPrince8Coefficients`, field `a`). -/
def dp8_a : List (List ℝ) :=
  [[1/18, 0, 0, 0, 0, 0, 0, 0, 0, 0, 0, 0],
   [1/48, 1/16, 0, 0, 0, 0, 0, 0, 0, 0, 0, 0],
   [1/32, 0, 3/32, 0, 0, 0, 0, 0, 0, 0, 0, 0],
   [5/16, 0, -75/64, 75/64, 0, 0, 0, 0, 0, 0, 0, 0],
   [3/80, 0, 0, 3/16, 3/20, 0, 0, 0, 0, 0, 0, 0],
   [29443841/614563906, 0, 0, 77736538/692538347, -28693883/1125000000,
    23124283/1800000000, 0, 0, 0, 0, 0, 0],
   [16016141/946692911, 0, 0, 61564180/158732637, 22789713/633445777,
    545815736/2771057229, -180193667/1043307555, 0, 0, 0, 0, 0],
   [39632708/573591083, 0, 0, -433636366/683701615, -421739975/2616292301,
    100302831/723423059, 790204164/839813087, 800635310/3783071287, 0, 0, 0, 0],
   [246121993/1340847787, 0, 0, -37695042795/15268766246, -309121744/1061227803,
    -12992083/490766935, 6005943493/2108947869, 393006217/1396673457,
    123872331/1001029789, 0, 0, 0],
   [-1028468189/846180014, 0, 0, 8478235783/508512852, 1311729495/1432422823,
    -10304129995/1701304382, -48777925059/3047939560, 15336726248/1032824649,
    -45442868181/3398467696, 3065993473/597172653, 0, 0],
   [185892177/718116043, 0, 0, -3185094517/667107341, -477755414/1098053517,
    -703635378/230739211, 5731566787/1027545527, 5232866602/850066563,
    -4093664535/808688257, 3962137247/1805957418, 65686358/487910083, 0],
   [403863854/491063109, 0, 0, -5068492393/434740067, -411421997/543043805,
    652783627/914296604, 11173962825/925320556, -13158990841/6184727034,
    3936647629/1978049680, -160528059/685178525, 248638103/1413531060, 0]]

/-- Eighth-order solution weights b8 (same tableau). -/
def dp8_b8 : List ℝ :=
  [14005451/335480064, 0, 0, 0, 0, -59238493/1068277825,
   181606767/758867731, 561292985/797845732, -1041891430/1371343529,
   760417239/1151165299, 118820643/751138087, -528747749/2220607170, 1/4]

/-- Seventh-order companion weights b7 (same tableau). -/
def dp8_b7 : List ℝ :=
  [13451932/455176623, 0, 0, 0, 0, -808719846/976000145,
   1757004468/5645159321, 656045339/265891186, -3867574721/1518517206,
   465885868/322736535, 53011238/667516719, 2/45, 0]

/-- Weighted sum Σ coeffs[j]·ks[j] over the indices present in both lists
(the inner `for j in 0..i` accumulation of the stepper). -/
def dotList (coeffs ks : List ℝ) : ℝ :=
  ((coeffs.zip ks).map (fun p => p.1 * p.2)).sum

/-- Turning-point sign management applied after a step: flip on a
positive-to-zero potential transition, then flip again on a strict sign
change of the potential product (integration.rs lines 163-168, repeated at
lines 373-384). -/
def potential_sign_flips (sign_r sign_theta r_pot_before theta_pot_before
    r_pot_after theta_pot_after : ℝ) : ℝ × ℝ :=
  let sr1 := if r_pot_before > 0 ∧ r_pot_after = 0 then -sign_r else sign_r
  let sth1 := if theta_pot_before > 0 ∧ theta_pot_after = 0 then -sign_theta else sign_theta
  let sr2 := if r_pot_before * r_pot_after < 0 then -sr1 else sr1
  let sth2 := if theta_pot_before * theta_pot_after < 0 then -sth1 else sth1
  (sr2, sth2)

/-- Interior stages 1..12 of the DOPRI8 step (integration.rs lines 131-145):
each stage forms the candidate point from the rows of `dp8_a`, picks a local
sign from the finite-difference direction corrected by the potential sign,
and appends the stage derivatives. -/
def dp8_stages (st : IntegrationState) (energy angular_momentum carter_q m a h : ℝ) :
    List (List ℝ) → List ℝ → List ℝ → List ℝ → (List ℝ × List ℝ × List ℝ)
  | [], k_r, k_theta, k_phi => (k_r, k_theta, k_phi)
  | row :: rest, k_r, k_theta, k_phi =>
    let r_temp := st.r + h * dotList row k_r
    let theta_temp := st.theta + h * dotList row k_theta
    let pots := carter_potentials r_temp theta_temp a energy angular_momentum carter_q
    let local_sign_r : ℝ := if r_temp - st.r ≥ 0 then 1.0 else -1.0
    let local_sign_theta : ℝ := if theta_temp - st.theta ≥ 0 then 1.0 else -1.0
    let adj_sign_r := if pots.1 ≤ 0 then -local_sign_r else local_sign_r
    let adj_sign_theta := if pots.2 ≤ 0 then -local_sign_theta else local_sign_theta
    dp8_stages st energy angular_momentum carter_q m a h rest
      (k_r ++ [geodesic_dr_dlambda r_temp theta_temp energy angular_momentum carter_q m a adj_sign_r])
      (k_theta ++ [geodesic_dtheta_dlambda r_temp theta_temp energy angular_momentum carter_q a adj_sign_theta])
      (k_phi ++ [geodesic_dphi_dlambda r_temp theta_temp energy angular_momentum m a])

/-- One embedded Dormand–Prince 8(7) step (integration.rs, `dopri8_step`):
13 stages, 8th-order update, max coordinate-wise difference to the 7th-order
companion as the error estimate, and turning-point sign flips for the new
state. -/
def dopri8_step (state : IntegrationState)
    (energy angular_momentum carter_q m a step_size : ℝ) : IntegrationState × ℝ :=
  let h := step_size
  let k0_r := geodesic_dr_dlambda state.r state.theta energy angular_momentum carter_q m a state.sign_r
  let k0_theta := geodesic_dtheta_dlambda state.r state.theta energy angular_momentum carter_q a state.sign_theta
  let k0_phi := geodesic_dphi_dlambda state.r state.theta energy angular_momentum m a
  let ks := dp8_stages state energy angular_momentum carter_q m a h dp8_a [k0_r] [k0_theta] [k0_phi]
  let new_r := state.r + h * dotList dp8_b8 ks.1
  let new_theta := state.theta + h * dotList dp8_b8 ks.2.1
  let new_phi := state.phi + h * dotList dp8_b8 ks.2.2
  let r7 := state.r + h * dotList dp8_b7 ks.1
  let theta7 := state.theta + h * dotList dp8_b7 ks.2.1
  let phi7 := state.phi + h * dotList dp8_b7 ks.2.2
  let error_estimate := max (max |new_r - r7| |new_theta - theta7|) |new_phi - phi7|
  let pots_before := carter_potentials state.r state.theta a energy angular_momentum carter_q
  let pots_after := carter_potentials new_r new_theta a energy angular_momentum carter_q
  let ns := potential_sign_flips state.sign_r state.sign_theta
      pots_before.1 pots_before.2 pots_after.1 pots_after.2
  ({ r := new_r, theta := new_theta, phi := new_phi, lambda := state.lambda + h,
     initial_phi := state.initial_phi, sign_r := ns.1, sign_theta := ns.2 },
   error_estimate)

/-- PI-style step-size controller (integration.rs, `compute_next_step_size`). -/
def compute_next_step_size (current_h error tolerance safety_factor : ℝ) : ℝ :=
  if error < 1e-14 then current_h * 5.0
  else
    let factor := (tolerance / error) ^ ((1.0 : ℝ) / 8.0) * safety_factor
    let factor_clamped := min (max factor 0.2) 5.0
    current_h * factor_clamped

/-- Inner bisection loop of `bisect_disc_intersection`
(integration.rs lines 204-221), iteration count as fuel. -/
def bisect_loop (state_before : IntegrationState)
    (energy angular_momentum carter_q m a : ℝ)
    (lambda_left lambda_right theta_left theta_right : ℝ) :
    Nat → IntegrationState
  | 0 =>
    (dopri8_step state_before energy angular_momentum carter_q m a
      ((lambda_left + lambda_right) * 0.5 - state_before.lambda)).1
  | n + 1 =>
    let equator := Real.pi / 2.0
    let tolerance : ℝ := 1e-12
    let frac := (equator - theta_left) / (theta_right - theta_left)
    let lambda_mid := lambda_left + frac * (lambda_right - lambda_left)
    let step_size := lambda_mid - state_before.lambda
    let mid_state := (dopri8_step state_before energy angular_momentum carter_q m a step_size).1
    let theta_mid := mid_state.theta
    if |theta_mid - equator| < tolerance then mid_state
    else
      if (theta_mid - equator) * (theta_right - equator) < 0 then
        if |lambda_right - lambda_mid| < 1e-15 then
          (dopri8_step state_before energy angular_momentum carter_q m a
            ((lambda_mid + lambda_right) * 0.5 - state_before.lambda)).1
        else
          bisect_loop state_before energy angular_momentum carter_q m a
            lambda_mid lambda_right theta_mid theta_right n
      else
        if |lambda_mid - lambda_left| < 1e-15 then
          (dopri8_step state_before energy angular_momentum carter_q m a
            ((lambda_left + lambda_mid) * 0.5 - state_before.lambda)).1
        else
          bisect_loop state_before energy angular_momentum carter_q m a
            lambda_left lambda_mid theta_left theta_mid n

/-- Disc-crossing refinement (integration.rs, `bisect_disc_intersection`):
if the bracket does not straddle the equator return the closer endpoint,
otherwise run up to `max_iterations` interpolation/bisection steps. -/
def bisect_disc_intersection (state_before state_after : IntegrationState)
    (energy angular_momentum carter_q m a : ℝ) (max_iterations : Nat) :
    IntegrationState :=
  let equator := Real.pi / 2.0
  if (state_before.theta - equator) * (state_after.theta - equator) ≥ 0 then
    (if |state_before.theta - equator| < |state_after.theta - equator|
     then state_before else state_after)
  else
    bisect_loop state_before energy angular_momentum carter_q m a
      state_before.lambda state_after.lambda state_before.theta state_after.theta
      max_iterations

/-- Keplerian angular velocity Ω = √M / (r^{3/2} + a√M)
(integration.rs, `keplerian_omega`). -/
def keplerian_omega (r m a : ℝ) : ℝ :=
  let sqrt_m := Real.sqrt m
  let r_3_2 := r ^ ((1.5 : ℝ))
  sqrt_m / (r_3_2 + a * sqrt_m)

/-- Model of `u8::saturating_add` (turn counters cap at 255). -/
def saturating_add_u8 (x y : Nat) : Nat := min (x + y) 255

/-- Model of `f64::rem_euclid` for a positive modulus. -/
def rem_euclid (x y : ℝ) : ℝ := x - y * (⌊x / y⌋ : ℤ)

/-- Defensive wrap of φ into [0, 2π) applied after every accepted step
(integration.rs line 449). -/
def wrap_phi (phi : ℝ) : ℝ := rem_euclid phi (2.0 * Real.pi)

/-- The recorded winding count at a crossing:
|φ − φ₀| / (2π) (integration.rs lines 424-425). -/
def phi_wraps_of (phi initial_phi : ℝ) : ℝ :=
  |phi - initial_phi| / (2.0 * Real.pi)

/-- Index-tracking helper for `fill_from`. -/
def fill_from_aux (dc mo : Nat) (v : GeodesicResult) :
    Nat → List GeodesicResult → List GeodesicResult
  | _, [] => []
  | i, x :: rest =>
    (if dc ≤ i ∧ i < mo then v else x) :: fill_from_aux dc mo v (i + 1) rest

/-- The fill pattern `for i in disc_crossings..max_orders { results[i] = v }`
used by every termination path of the driver. -/
def fill_from (results : List GeodesicResult) (dc mo : Nat) (v : GeodesicResult) :
    List GeodesicResult :=
  fill_from_aux dc mo v 0 results

/-- Stopping conditions of the accepted-step path
(integration.rs lines 396-410): capture below 1.01·r₊, escape above the
constant 1000.0; `none` means the integration continues. -/
def stop_classify (r r_horizon : ℝ) (results : List GeodesicResult)
    (disc_crossings max_orders turns_r turns_theta : Nat) :
    Option (List GeodesicResult) :=
  if r < r_horizon * 1.01 then
    some (fill_from results disc_crossings max_orders
      (GeodesicResult.Captured turns_r turns_theta))
  else if r > 1000.0 then
    some (fill_from results disc_crossings max_orders
      (GeodesicResult.Escaped turns_r turns_theta))
  else none

/-- Heuristic classification of the final state when the step budget runs out
(integration.rs lines 464-479): r < 10 ⇒ captured, r > 100 ⇒ escaped,
otherwise by the sign of the radial motion. -/
def exhaust_likely_fate (r sign_r : ℝ) (turns_r turns_theta : Nat) :
    GeodesicResult :=
  if r < 10.0 then GeodesicResult.Captured turns_r turns_theta
  else if r > 100.0 then GeodesicResult.Escaped turns_r turns_theta
  else if sign_r < 0 then GeodesicResult.Captured turns_r turns_theta
  else GeodesicResult.Escaped turns_r turns_theta

/-- Post-loop classification applied to the remaining order slots
(integration.rs lines 462-485). -/
def exhaust_classify (results : List GeodesicResult) (disc_crossings max_orders : Nat)
    (r sign_r : ℝ) (turns_r turns_theta : Nat) : List GeodesicResult :=
  if disc_crossings < max_orders then
    fill_from results disc_crossings max_orders
      (exhaust_likely_fate r sign_r turns_r turns_theta)
  else results

/-- Post-step sign updates on an accepted step (integration.rs lines 357-384):
finite-difference continuity first, then the turning-point potential flips. -/
def update_signs_accepted (prev cur : IntegrationState)
    (energy angular_momentum carter_q a : ℝ) : IntegrationState :=
  let dr := cur.r - prev.r
  let dth := cur.theta - prev.theta
  let sr : ℝ := if |dr| > 1e-12 then (if dr ≥ 0 then 1.0 else -1.0) else cur.sign_r
  let sth : ℝ := if |dth| > 1e-12 then (if dth ≥ 0 then 1.0 else -1.0) else cur.sign_theta
  let pots_before := carter_potentials prev.r prev.theta a energy angular_momentum carter_q
  let pots_after := carter_potentials cur.r cur.theta a energy angular_momentum carter_q
  let ns := potential_sign_flips sr sth pots_before.1 pots_before.2 pots_after.1 pots_after.2
  { cur with sign_r := ns.1, sign_theta := ns.2 }

/-- Disc-crossing detection and recording for one accepted step
(integration.rs lines 412-446).  The first component is `some results` when
all orders are filled and the integration returns; the second and third are
the updated results list and crossing count. -/
def handle_crossing (prev st1 : IntegrationState) (photon : PhotonState)
    (m a r_disc_inner r_disc_outer : ℝ) (results : List GeodesicResult)
    (disc_crossings max_orders turns_r turns_theta : Nat) :
    Option (List GeodesicResult) × List GeodesicResult × Nat :=
  let equator := Real.pi / 2.0
  let crossed := (prev.theta - equator) * (st1.theta - equator) < 0
  if crossed then
    let exact_state := bisect_disc_intersection prev st1 photon.energy
      photon.angular_momentum photon.carter_q m a 20
    if exact_state.r ≥ r_disc_inner ∧ exact_state.r ≤ r_disc_outer then
      let results2 :=
        if disc_crossings < max_orders then
          let impact_param := photon.angular_momentum / photon.energy
          let omega := keplerian_omega exact_state.r m a
          let redshift := compute_redshift_factor exact_state.r exact_state.theta
            photon.energy photon.angular_momentum m a omega
          let null_error := compute_null_invariant exact_state.r exact_state.theta
            photon.energy photon.angular_momentum photon.carter_q m a
            exact_state.sign_r exact_state.sign_theta
          results.set disc_crossings (GeodesicResult.DiscHit exact_state.r
            exact_state.theta exact_state.phi photon.energy photon.angular_momentum
            photon.carter_q impact_param redshift exact_state.lambda
            (phi_wraps_of exact_state.phi exact_state.initial_phi)
            disc_crossings null_error turns_r turns_theta)
        else results
      let dc2 := disc_crossings + 1
      if dc2 ≥ max_orders then (some results2, results2, dc2)
      else (none, results2, dc2)
    else (none, results, disc_crossings)
  else (none, results, disc_crossings)

/-- Loop-carried state of `integrate_geodesic_multi_order`. -/
structure LoopState where
  state : IntegrationState
  results : List GeodesicResult
  disc_crossings : Nat
  turns_r : Nat
  turns_theta : Nat
  prev_sign_r : ℝ
  prev_sign_theta : ℝ
  h : ℝ
  steps_taken : Nat

/-- The main adaptive `while steps_taken < max_steps` loop of
`integrate_geodesic_multi_order` (integration.rs lines 346-487).  `fuel`
bounds the total number of loop iterations (accepted plus rejected), which
the Rust loop does not need to count because rejected steps drive h down to
h_min in finitely many iterations; when either the fuel or the step budget is
exhausted, the remaining orders are classified by `exhaust_classify` exactly
as in the post-loop code. -/
def integrate_loop (photon : PhotonState) (m a r_horizon r_disc_inner r_disc_outer : ℝ)
    (max_orders max_steps : Nat) : LoopState → Nat → List GeodesicResult
  | ls, 0 =>
    exhaust_classify ls.results ls.disc_crossings max_orders
      ls.state.r ls.state.sign_r ls.turns_r ls.turns_theta
  | ls, fuel + 1 =>
    if ls.steps_taken < max_steps then
      let tolerance : ℝ := 1e-12
      let safety_factor : ℝ := 0.9
      let h_min : ℝ := 1e-8
      let h_max : ℝ := 0.5
      let step := dopri8_step ls.state photon.energy photon.angular_momentum
        photon.carter_q m a ls.h
      let trial_state := step.1
      let error := step.2
      if error ≤ tolerance ∨ ls.h ≤ h_min then
        let prev := ls.state
        let st1 := update_signs_accepted prev trial_state photon.energy
          photon.angular_momentum photon.carter_q a
        let turns_r1 := if st1.sign_r ≠ ls.prev_sign_r
          then saturating_add_u8 ls.turns_r 1 else ls.turns_r
        let prev_sign_r1 := if st1.sign_r ≠ ls.prev_sign_r
          then st1.sign_r else ls.prev_sign_r
        let turns_theta1 := if st1.sign_theta ≠ ls.prev_sign_theta
          then saturating_add_u8 ls.turns_theta 1 else ls.turns_theta
        let prev_sign_theta1 := if st1.sign_theta ≠ ls.prev_sign_theta
          then st1.sign_theta else ls.prev_sign_theta
        match stop_classify st1.r r_horizon ls.results ls.disc_crossings
            max_orders turns_r1 turns_theta1 with
        | some res => res
        | none =>
          let hc := handle_crossing prev st1 photon m a r_disc_inner r_disc_outer
            ls.results ls.disc_crossings max_orders turns_r1 turns_theta1
          match hc.1 with
          | some res => res
          | none =>
            let results2 := hc.2.1
            let dc2 := hc.2.2
            let theta2 := if st1.theta < 0 ∨ st1.theta > Real.pi
              then rem_euclid st1.theta Real.pi else st1.theta
            let phi2 := wrap_phi st1.phi
            let st2 := { st1 with theta := theta2, phi := phi2 }
            let h1 := compute_next_step_size ls.h (max error 1e-16) tolerance safety_factor
            let h2 := min (max h1 h_min) h_max
            integrate_loop photon m a r_horizon r_disc_inner r_disc_outer
              max_orders max_steps
              { state := st2, results := results2, disc_crossings := dc2,
                turns_r := turns_r1, turns_theta := turns_theta1,
                prev_sign_r := prev_sign_r1, prev_sign_theta := prev_sign_theta1,
                h := h2, steps_taken := ls.steps_taken + 1 } fuel
      else
        let h1 := compute_next_step_size ls.h error tolerance safety_factor
        let h2 := min (max h1 h_min) h_max
        integrate_loop photon m a r_horizon r_disc_inner r_disc_outer
          max_orders max_steps { ls with h := h2 } fuel
    else
      exhaust_classify ls.results ls.disc_crossings max_orders
        ls.state.r ls.state.sign_r ls.turns_r ls.turns_theta

/-- Multi-order driver (integration.rs, `integrate_geodesic_multi_order`):
one integration pass collecting up to `max_orders` disc crossings, with the
result vector pre-filled with `Escaped 0 0`.  The extra `fuel` argument
bounds loop iterations as explained at `integrate_loop`. -/
def integrate_geodesic_multi_order (photon : PhotonState) (initial_sign_theta : ℝ)
    (black_hole : BlackHole) (r_disc_inner r_disc_outer : ℝ)
    (max_orders max_steps fuel : Nat) : List GeodesicResult :=
  let m := black_hole.mass
  let a := black_hole.spin
  let r_horizon := black_hole.horizon_radius
  let state := IntegrationState.new photon initial_sign_theta
  let results := List.replicate max_orders (GeodesicResult.Escaped 0 0)
  integrate_loop photon m a r_horizon r_disc_inner r_disc_outer max_orders max_steps
    { state := state, results := results, disc_crossings := 0, turns_r := 0,
      turns_theta := 0, prev_sign_r := state.sign_r,
      prev_sign_theta := state.sign_theta, h := 0.05, steps_taken := 0 } fuel

/-! ## Theorems -/

/-- C1: for positive dimensions and max_orders between 1 and 3 the
constructor succeeds and stores exactly the given values (the `assert!` at
types.rs line 372 allows 1-3, not 1-5 as the claim states). -/
theorem render_config_new_ok (W H N : Nat) (hW : 0 < W) (hH : 0 < H)
    (h1 : 1 ≤ N) (h3 : N ≤ 3) :
    RenderConfig.new W H N = some ⟨W, H, N⟩ := by
  unfold RenderConfig.new
  rw [if_pos ⟨hW, hH⟩, if_pos ⟨h1, h3⟩]

/-- C1 witness: concrete successful construction. -/
theorem render_config_new_ok_witness :
    0 < 320 ∧ 0 < 240 ∧ 1 ≤ 2 ∧ 2 ≤ 3 ∧
    RenderConfig.new 320 240 2 = some ⟨320, 240, 2⟩ :=
  ⟨by decide, by decide, by decide, by decide,
   render_config_new_ok 320 240 2 (by decide) (by decide) (by decide) (by decide)⟩

/-- C1 counterexample: max_orders = 4 lies in the claimed range [1, 5] and
has positive dimensions, yet `RenderConfig::new` panics (returns `none`):
the assertion is `max_orders <= 3`. -/
theorem render_config_new_counterexample :
    RenderConfig.new 320 240 4 = none ∧ 1 ≤ 4 ∧ 4 ≤ 5 ∧ 0 < 320 ∧ 0 < 240 := by
  refine ⟨?_, by decide, by decide, by decide, by decide⟩
  decide

/-- C6: with spin a = 0 the Schwarzschild early-return fires, so the ISCO is
exactly 6M for both orbit directions. -/
theorem isco_schwarzschild (m : ℝ) (_hm : 0 < m) (d : OrbitDirection) :
    BlackHole.isco_radius ⟨m, 0⟩ d = 6 * m := by
  unfold BlackHole.isco_radius
  norm_num

/-- C6 witness: instance at M = 1 for both directions. -/
theorem isco_schwarzschild_witness :
    (0:ℝ) < 1 ∧
    BlackHole.isco_radius ⟨1, 0⟩ OrbitDirection.Prograde = 6 * 1 ∧
    BlackHole.isco_radius ⟨1, 0⟩ OrbitDirection.Retrograde = 6 * 1 :=
  ⟨by norm_num, isco_schwarzschild 1 (by norm_num) OrbitDirection.Prograde,
   isco_schwarzschild 1 (by norm_num) OrbitDirection.Retrograde⟩

/-- C10: the redshift factor is total and non-negative for every input, and
whenever the circular-orbit normalisation factor is not strictly negative the
guard falls back to u^t = 1, making the result |E − Ω·L_z|; no square root of
a non-positive number is ever taken. -/
theorem redshift_factor_nonneg_and_guard :
    (∀ r θ E L m a ω : ℝ, 0 ≤ compute_redshift_factor r θ E L m a ω) ∧
    (∀ r θ E L m a ω : ℝ, ¬ redshift_norm_factor r θ m a ω < 0 →
      compute_redshift_factor r θ E L m a ω = |E - ω * L|) := by
  constructor
  · intro r θ E L m a ω
    unfold compute_redshift_factor
    exact abs_nonneg _
  · intro r θ E L m a ω h
    unfold compute_redshift_factor redshift_u_t
    rw [if_neg h]
    ring_nf

/-- C10 witness: at (r, θ, m, a, Ω) = (1, 0, 1, 0, 0) the normalisation
factor is 1 ≥ 0 and the fallback result is |E − Ω·L_z| = |2 − 0·3|. -/
theorem redshift_factor_nonneg_and_guard_witness :
    ¬ redshift_norm_factor 1 0 1 0 0 < 0 ∧
    compute_redshift_factor 1 0 2 3 1 0 0 = |2 - 0 * 3| := by
  have h : ¬ redshift_norm_factor 1 0 1 0 0 < 0 := by
    unfold redshift_norm_factor sigma
    norm_num
  exact ⟨h, redshift_factor_nonneg_and_guard.2 1 0 2 3 1 0 0 h⟩

/-- Element-wise description of `fill_from_aux`: position i of the output is
the fill value when the absolute index j+i lies in [dc, mo), and the original
element otherwise. -/
theorem fill_from_aux_getElem (dc mo : Nat) (v : GeodesicResult) :
    ∀ (l : List GeodesicResult) (j i : Nat),
      (fill_from_aux dc mo v j l)[i]? =
        (l[i]?).map (fun x => if dc ≤ j + i ∧ j + i < mo then v else x) := by
  intro l
  induction l with
  | nil => intro j i; simp [fill_from_aux]
  | cons x rest ih =>
    intro j i
    cases i with
    | zero => simp [fill_from_aux]
    | succ n =>
      simp only [fill_from_aux, List.getElem?_cons_succ]
      rw [ih (j + 1) n]
      have hj : j + 1 + n = j + (n + 1) := by omega
      rw [hj]

/-- Element-wise description of the driver's slot-fill pattern. -/
theorem fill_from_getElem (l : List GeodesicResult) (dc mo : Nat)
    (v : GeodesicResult) (i : Nat) :
    (fill_from l dc mo v)[i]? =
      (l[i]?).map (fun x => if dc ≤ i ∧ i < mo then v else x) := by
  unfold fill_from
  rw [fill_from_aux_getElem dc mo v l 0 i]
  simp

/-- C5 (amended; thresholds are the constants 10 and 100, i.e. 10M and 100M
in the geometric units M = 1 used by the program): on step-budget exhaustion
the remaining slots are classified r < 10 ⇒ Captured, r > 100 ⇒ Escaped,
otherwise by sign_r, and every slot with index in [disc_crossings,
max_orders) receives that same classification while the other slots are left
unchanged. -/
theorem exhaust_budget_classification :
    (∀ (r sr : ℝ) (tr tt : Nat), r < 10 →
       exhaust_likely_fate r sr tr tt = GeodesicResult.Captured tr tt) ∧
    (∀ (r sr : ℝ) (tr tt : Nat), ¬ r < 10 → r > 100 →
       exhaust_likely_fate r sr tr tt = GeodesicResult.Escaped tr tt) ∧
    (∀ (r sr : ℝ) (tr tt : Nat), ¬ r < 10 → ¬ r > 100 → sr < 0 →
       exhaust_likely_fate r sr tr tt = GeodesicResult.Captured tr tt) ∧
    (∀ (r sr : ℝ) (tr tt : Nat), ¬ r < 10 → ¬ r > 100 → ¬ sr < 0 →
       exhaust_likely_fate r sr tr tt = GeodesicResult.Escaped tr tt) ∧
    (∀ (results : List GeodesicResult) (dc mo : Nat) (r sr : ℝ) (tr tt : Nat),
       dc < mo →
       exhaust_classify results dc mo r sr tr tt =
         fill_from results dc mo (exhaust_likely_fate r sr tr tt)) ∧
    (∀ (l : List GeodesicResult) (dc mo : Nat) (v : GeodesicResult) (i : Nat),
       (fill_from l dc mo v)[i]? =
         (l[i]?).map (fun x => if dc ≤ i ∧ i < mo then v else x)) := by
  have hten : (10.0 : ℝ) = 10 := by norm_num
  have hhun : (100.0 : ℝ) = 100 := by norm_num
  refine ⟨?_, ?_, ?_, ?_, ?_, ?_⟩
  · intro r sr tr tt h
    unfold exhaust_likely_fate
    rw [hten, if_pos h]
  · intro r sr tr tt h1 h2
    unfold exhaust_likely_fate
    rw [hten, hhun, if_neg h1, if_pos h2]
  · intro r sr tr tt h1 h2 h3
    unfold exhaust_likely_fate
    rw [hten, hhun, if_neg h1, if_neg h2, if_pos h3]
  · intro r sr tr tt h1 h2 h3
    unfold exhaust_likely_fate
    rw [hten, hhun, if_neg h1, if_neg h2, if_neg h3]
  · intro results dc mo r sr tr tt h
    unfold exhaust_classify
    rw [if_pos h]
  · exact fill_from_getElem

/-- C5 witness: all four classification branches and the fill step at
concrete inputs. -/
theorem exhaust_budget_classification_witness :
    exhaust_likely_fate 5 1 2 3 = GeodesicResult.Captured 2 3 ∧
    exhaust_likely_fate 200 1 2 3 = GeodesicResult.Escaped 2 3 ∧
    exhaust_likely_fate 50 (-1) 2 3 = GeodesicResult.Captured 2 3 ∧
    exhaust_likely_fate 50 1 2 3 = GeodesicResult.Escaped 2 3 ∧
    exhaust_classify [GeodesicResult.Escaped 0 0] 0 1 5 1 2 3 =
      fill_from [GeodesicResult.Escaped 0 0] 0 1 (exhaust_likely_fate 5 1 2 3) :=
  ⟨exhaust_budget_classification.1 5 1 2 3 (by norm_num),
   exhaust_budget_classification.2.1 200 1 2 3 (by norm_num) (by norm_num),
   exhaust_budget_classification.2.2.1 50 (-1) 2 3 (by norm_num) (by norm_num) (by norm_num),
   exhaust_budget_classification.2.2.2.1 50 1 2 3 (by norm_num) (by norm_num) (by norm_num),
   exhaust_budget_classification.2.2.2.2.1 [GeodesicResult.Escaped 0 0] 0 1 5 1 2 3
     (by decide)⟩

/-- C5 counterexample: the classifier compares r with the constant 10, not
with 10·M.  For a black hole of mass M = 2 a final state with r = 15 < 10·M
and sign_r = +1 is classified Escaped, while the claim (r < 10M ⇒ Captured)
demands Captured. -/
theorem exhaust_budget_counterexample :
    exhaust_likely_fate 15 1 3 4 = GeodesicResult.Escaped 3 4 ∧
    (15 : ℝ) < 10 * 2 ∧
    GeodesicResult.Escaped 3 4 ≠ GeodesicResult.Captured 3 4 := by
  refine ⟨?_, by norm_num, by intro h; exact GeodesicResult.noConfusion h⟩
  unfold exhaust_likely_fate
  rw [if_neg (by norm_num), if_neg (by norm_num), if_neg (by norm_num)]

/-- C4 (amended; the escape threshold is the constant 1000.0, i.e. 1000·M
only in the geometric units M = 1): an accepted step with r below 1.01·r₊
fills every still-unfilled slot with Captured carrying the current turn
counts and returns; otherwise r above the constant 1000 fills them with
Escaped and returns; otherwise integration continues.  The horizon radius is
M + √(M² − a²) for every mass. -/
theorem stop_conditions :
    (∀ M A : ℝ, BlackHole.horizon_radius ⟨M, A⟩ = M + Real.sqrt (M * M - A * A)) ∧
    (∀ (r rh : ℝ) (results : List GeodesicResult) (dc mo tr tt : Nat),
       r < rh * 1.01 →
       stop_classify r rh results dc mo tr tt =
         some (fill_from results dc mo (GeodesicResult.Captured tr tt))) ∧
    (∀ (r rh : ℝ) (results : List GeodesicResult) (dc mo tr tt : Nat),
       ¬ r < rh * 1.01 → r > 1000 →
       stop_classify r rh results dc mo tr tt =
         some (fill_from results dc mo (GeodesicResult.Escaped tr tt))) ∧
    (∀ (r rh : ℝ) (results : List GeodesicResult) (dc mo tr tt : Nat),
       ¬ r < rh * 1.01 → ¬ r > 1000 →
       stop_classify r rh results dc mo tr tt = none) := by
  have hth : (1000.0 : ℝ) = 1000 := by norm_num
  refine ⟨fun M A => rfl, ?_, ?_, ?_⟩
  · intro r rh results dc mo tr tt h
    unfold stop_classify
    rw [if_pos h]
  · intro r rh results dc mo tr tt h1 h2
    unfold stop_classify
    rw [if_neg h1, hth, if_pos h2]
  · intro r rh results dc mo tr tt h1 h2
    unfold stop_classify
    rw [if_neg h1, hth, if_neg h2]

/-- C4 witness: both stopping branches and the continue branch at concrete
inputs (r₊ = 2 for M = 1, a = 0 would give 2.02 as capture bound; here rh is
passed directly). -/
theorem stop_conditions_witness :
    stop_classify 1 2 [GeodesicResult.Escaped 0 0] 0 1 4 5 =
      some (fill_from [GeodesicResult.Escaped 0 0] 0 1 (GeodesicResult.Captured 4 5)) ∧
    stop_classify 2000 2 [GeodesicResult.Escaped 0 0] 0 1 4 5 =
      some (fill_from [GeodesicResult.Escaped 0 0] 0 1 (GeodesicResult.Escaped 4 5)) ∧
    stop_classify 500 2 [GeodesicResult.Escaped 0 0] 0 1 4 5 = none :=
  ⟨stop_conditions.2.1 1 2 [GeodesicResult.Escaped 0 0] 0 1 4 5 (by norm_num),
   stop_conditions.2.2.1 2000 2 [GeodesicResult.Escaped 0 0] 0 1 4 5
     (by norm_num) (by norm_num),
   stop_conditions.2.2.2 500 2 [GeodesicResult.Escaped 0 0] 0 1 4 5
     (by norm_num) (by norm_num)⟩

/-- C4 counterexample: for mass M = 2 (a = 0, so r₊ = 4) the state r = 1500
satisfies r ≤ 1000·M = 2000, yet the driver stops and marks the remaining
slots Escaped, because the code compares r with the constant 1000.0 rather
than with 1000·M. -/
theorem stop_conditions_counterexample :
    stop_classify 1500 (BlackHole.horizon_radius ⟨2, 0⟩)
        [GeodesicResult.Escaped 0 0, GeodesicResult.Escaped 0 0] 0 2 7 8 =
      some [GeodesicResult.Escaped 7 8, GeodesicResult.Escaped 7 8] ∧
    ¬ ((1500 : ℝ) > 1000 * 2) ∧ (0 : ℝ) < 2 := by
  have hh : BlackHole.horizon_radius ⟨2, 0⟩ = 4 := by
    unfold BlackHole.horizon_radius
    rw [show (2 * 2 - 0 * 0 : ℝ) = 2 ^ 2 by norm_num,
      Real.sqrt_sq (by norm_num : (0:ℝ) ≤ 2)]
    norm_num
  refine ⟨?_, by norm_num, by norm_num⟩
  unfold stop_classify
  rw [hh, if_neg (by norm_num), if_pos (by norm_num)]
  simp [fill_from, fill_from_aux]

/-- The turning-point flips only ever negate a sign, so membership in
{−1, +1} is preserved. -/
theorem potential_sign_flips_pm (sr sth pb tb pa ta : ℝ)
    (hr : sr = 1 ∨ sr = -1) (ht : sth = 1 ∨ sth = -1) :
    ((potential_sign_flips sr sth pb tb pa ta).1 = 1 ∨
     (potential_sign_flips sr sth pb tb pa ta).1 = -1) ∧
    ((potential_sign_flips sr sth pb tb pa ta).2 = 1 ∨
     (potential_sign_flips sr sth pb tb pa ta).2 = -1) := by
  unfold potential_sign_flips
  constructor
  · split_ifs <;> rcases hr with h | h <;> simp [h]
  · split_ifs <;> rcases ht with h | h <;> simp [h]

/-- C9: provided the initial sign_θ is ±1, both direction signs are in
{−1, +1} at initialization, after every DOPRI8 step, and after every
post-step sign update (finite-difference continuity plus turning-point
flips); no sign mutation in the integrator produces any other value. -/
theorem sign_fields_pm_one :
    (∀ (photon : PhotonState) (ist : ℝ), ist = 1 ∨ ist = -1 →
       ((IntegrationState.new photon ist).sign_r = 1 ∨
        (IntegrationState.new photon ist).sign_r = -1) ∧
       ((IntegrationState.new photon ist).sign_theta = 1 ∨
        (IntegrationState.new photon ist).sign_theta = -1)) ∧
    (∀ (st : IntegrationState) (e lz q m a h : ℝ),
       st.sign_r = 1 ∨ st.sign_r = -1 →
       st.sign_theta = 1 ∨ st.sign_theta = -1 →
       ((dopri8_step st e lz q m a h).1.sign_r = 1 ∨
        (dopri8_step st e lz q m a h).1.sign_r = -1) ∧
       ((dopri8_step st e lz q m a h).1.sign_theta = 1 ∨
        (dopri8_step st e lz q m a h).1.sign_theta = -1)) ∧
    (∀ (prev cur : IntegrationState) (e lz q a : ℝ),
       cur.sign_r = 1 ∨ cur.sign_r = -1 →
       cur.sign_theta = 1 ∨ cur.sign_theta = -1 →
       ((update_signs_accepted prev cur e lz q a).sign_r = 1 ∨
        (update_signs_accepted prev cur e lz q a).sign_r = -1) ∧
       ((update_signs_accepted prev cur e lz q a).sign_theta = 1 ∨
        (update_signs_accepted prev cur e lz q a).sign_theta = -1)) := by
  refine ⟨?_, ?_, ?_⟩
  · intro photon ist hist
    exact ⟨Or.inr (by norm_num [IntegrationState.new]), hist⟩
  · intro st e lz q m a h hr ht
    unfold dopri8_step
    exact potential_sign_flips_pm _ _ _ _ _ _ hr ht
  · intro prev cur e lz q a hr ht
    unfold update_signs_accepted
    refine potential_sign_flips_pm _ _ _ _ _ _ ?_ ?_
    · split_ifs with h1 h2
      · exact Or.inl (by norm_num)
      · exact Or.inr (by norm_num)
      · exact hr
    · split_ifs with h1 h2
      · exact Or.inl (by norm_num)
      · exact Or.inr (by norm_num)
      · exact ht

/-- C9 witness: the invariant instantiated at concrete states with sign
fields +1 and initial sign −1. -/
theorem sign_fields_pm_one_witness :
    ((1:ℝ) = 1 ∨ (1:ℝ) = -1) ∧
    (((IntegrationState.new ⟨10, 1, 0, 1, 0, 0⟩ 1).sign_r = 1 ∨
      (IntegrationState.new ⟨10, 1, 0, 1, 0, 0⟩ 1).sign_r = -1) ∧
     ((IntegrationState.new ⟨10, 1, 0, 1, 0, 0⟩ 1).sign_theta = 1 ∨
      (IntegrationState.new ⟨10, 1, 0, 1, 0, 0⟩ 1).sign_theta = -1)) ∧
    ((update_signs_accepted ⟨10, 1, 0, 0, 0, 1, 1⟩ ⟨9, 1, 0, 0, 0, 1, 1⟩ 1 0 0 0).sign_r = 1 ∨
     (update_signs_accepted ⟨10, 1, 0, 0, 0, 1, 1⟩ ⟨9, 1, 0, 0, 0, 1, 1⟩ 1 0 0 0).sign_r = -1) :=
  ⟨Or.inl rfl,
   sign_fields_pm_one.1 ⟨10, 1, 0, 1, 0, 0⟩ 1 (Or.inl rfl),
   (sign_fields_pm_one.2.2 ⟨10, 1, 0, 0, 0, 1, 1⟩ ⟨9, 1, 0, 0, 0, 1, 1⟩ 1 0 0 0
     (Or.inl rfl) (Or.inl rfl)).1⟩

/-- The euclidean remainder with positive modulus lands in [0, y). -/
theorem rem_euclid_nonneg_lt (x y : ℝ) (hy : 0 < y) :
    0 ≤ rem_euclid x y ∧ rem_euclid x y < y := by
  have hfr : rem_euclid x y = y * Int.fract (x / y) := by
    unfold rem_euclid
    rw [Int.fract]
    field_simp
  constructor
  · rw [hfr]
    exact mul_nonneg hy.le (Int.fract_nonneg _)
  · rw [hfr]
    calc y * Int.fract (x / y) < y * 1 :=
          (mul_lt_mul_left hy).mpr (Int.fract_lt_one _)
    _ = y := mul_one y

/-- C3 (amended): the recorded φ-wrap value at a crossing is
|φ − φ₀| / (2π) computed from the state azimuth, which is reduced into
[0, 2π) by the defensive wrap after every accepted step; consequently for any
initial φ₀ in (−π, π] (the range `atan2` produces) the recorded value stays
below 3/2 no matter how much total azimuth was accumulated — it is not a
cumulative winding count. -/
theorem phi_wraps_is_wrapped :
    (∀ x : ℝ, 0 ≤ wrap_phi x ∧ wrap_phi x < 2 * Real.pi) ∧
    (∀ phi phi0 : ℝ, phi_wraps_of phi phi0 = |phi - phi0| / (2 * Real.pi)) ∧
    (∀ x phi0 : ℝ, -Real.pi < phi0 → phi0 ≤ Real.pi →
       phi_wraps_of (wrap_phi x) phi0 < 3 / 2) := by
  have h20 : (2.0 : ℝ) = 2 := by norm_num
  have h2pi : (0:ℝ) < 2 * Real.pi := by positivity
  have hwrap : ∀ x : ℝ, 0 ≤ wrap_phi x ∧ wrap_phi x < 2 * Real.pi := by
    intro x
    unfold wrap_phi
    rw [h20]
    exact rem_euclid_nonneg_lt x (2 * Real.pi) h2pi
  refine ⟨hwrap, ?_, ?_⟩
  · intro phi phi0
    unfold phi_wraps_of
    rw [h20]
  · intro x phi0 h1 h2
    obtain ⟨hw0, hw2⟩ := hwrap x
    unfold phi_wraps_of
    rw [h20, div_lt_iff h2pi]
    have habs : |wrap_phi x - phi0| < 3 * Real.pi := by
      rw [abs_lt]
      constructor
      · have := Real.pi_pos
        linarith
      · linarith
    calc |wrap_phi x - phi0| < 3 * Real.pi := habs
    _ = 3 / 2 * (2 * Real.pi) := by ring

/-- C3 witness: the wrap bound and the 3/2 bound at concrete inputs. -/
theorem phi_wraps_is_wrapped_witness :
    (0 ≤ wrap_phi 7 ∧ wrap_phi 7 < 2 * Real.pi) ∧
    (-Real.pi < 0 ∧ (0:ℝ) ≤ Real.pi) ∧
    phi_wraps_of (wrap_phi 7) 0 < 3 / 2 :=
  ⟨phi_wraps_is_wrapped.1 7,
   ⟨by have := Real.pi_pos; linarith, Real.pi_pos.le⟩,
   phi_wraps_is_wrapped.2.2 7 0 (by have := Real.pi_pos; linarith) Real.pi_pos.le⟩

/-- C3 counterexample: a ray whose azimuth has advanced by 2π + 1 since the
start (φ₀ = 0, more than one full winding) carries the wrapped state azimuth
1, and the recorded value |φ − φ₀|/(2π) is then below 1 — not the genuine
winding count (2π + 1)/(2π) ≥ 1. -/
theorem phi_wraps_counterexample :
    wrap_phi (2 * Real.pi + 1) = 1 ∧
    phi_wraps_of (wrap_phi (2 * Real.pi + 1)) 0 < 1 ∧
    1 ≤ (2 * Real.pi + 1) / (2 * Real.pi) := by
  have h2pi : (0:ℝ) < 2 * Real.pi := by positivity
  have hpi3 : (3:ℝ) < Real.pi := Real.pi_gt_three
  have hone : (1:ℝ) ≤ (2 * Real.pi + 1) / (2 * Real.pi) := by
    rw [le_div_iff h2pi]
    linarith
  have hval : wrap_phi (2 * Real.pi + 1) = 1 := by
    unfold wrap_phi rem_euclid
    have hfl : ⌊(2 * Real.pi + 1) / (2.0 * Real.pi)⌋ = 1 := by
      rw [show (2.0 : ℝ) = 2 by norm_num, Int.floor_eq_iff]
      constructor
      · push_cast
        rw [le_div_iff h2pi]
        linarith
      · push_cast
        rw [div_lt_iff h2pi]
        linarith
    rw [hfl]
    push_cast
    ring
  refine ⟨hval, ?_, hone⟩
  rw [hval]
  unfold phi_wraps_of
  rw [show (2.0 : ℝ) = 2 by norm_num, div_lt_one h2pi]
  rw [abs_of_pos (by norm_num)]
  linarith

/-- Polynomial heart of the emissivity bound: on [0, 1] the function
2w⁶(1−w) is at most 2·6⁶/7⁷ = 93312/823543 (maximum at w = 6/7). -/
theorem novikov_bound_aux (w : ℝ) (hw0 : 0 ≤ w) (_hw1 : w ≤ 1) :
    2 * w ^ 6 * (1 - w) ≤ 93312 / 823543 := by
  have key : 823543 * w ^ 7 - 823543 * w ^ 6 + 46656 =
      (7 * w - 6) ^ 2 *
        (16807 * w ^ 5 + 12005 * w ^ 4 + 8232 * w ^ 3 + 5292 * w ^ 2
          + 3024 * w + 1296) := by
    ring
  have hq : 0 ≤ 16807 * w ^ 5 + 12005 * w ^ 4 + 8232 * w ^ 3 + 5292 * w ^ 2
      + 3024 * w + 1296 := by
    have h5 := pow_nonneg hw0 5
    have h4 := pow_nonneg hw0 4
    have h3 := pow_nonneg hw0 3
    have h2 := pow_nonneg hw0 2
    linarith
  have hp : 0 ≤ 823543 * w ^ 7 - 823543 * w ^ 6 + 46656 := by
    rw [key]
    exact mul_nonneg (sq_nonneg _) hq
  nlinarith [hp]

/-- The Novikov–Thorne profile as coded is globally bounded by
93312/823543 ≈ 0.1133 for every positive ISCO radius: the normalisation
2·r_ISCO³ makes the value equal 2w⁶(1−w) with w = √(r_ISCO/r). -/
theorem novikov_thorne_emissivity_le (r r_isco : ℝ) (h : 0 < r_isco) :
    novikov_thorne_emissivity r r_isco ≤ 93312 / 823543 := by
  unfold novikov_thorne_emissivity
  split_ifs with hlt
  · norm_num
  · push_neg at hlt
    have hr : 0 < r := lt_of_lt_of_le h hlt
    have hratio0 : 0 ≤ r_isco / r := by positivity
    have hw0 : 0 ≤ Real.sqrt (r_isco / r) := Real.sqrt_nonneg _
    have hw2 : Real.sqrt (r_isco / r) ^ 2 = r_isco / r := Real.sq_sqrt hratio0
    have hw1 : Real.sqrt (r_isco / r) ≤ 1 := by
      rw [show (1:ℝ) = Real.sqrt 1 from Real.sqrt_one.symm]
      exact Real.sqrt_le_sqrt ((div_le_one hr).mpr hlt)
    have hrpow : r ^ ((-3.0 : ℝ)) = (r ^ 3)⁻¹ := by
      rw [show (-3.0 : ℝ) = -((3:ℕ):ℝ) by norm_num, Real.rpow_neg hr.le,
        Real.rpow_natCast]
    have hrpow2 : r_isco ^ ((3.0 : ℝ)) = r_isco ^ 3 := by
      rw [show (3.0 : ℝ) = ((3:ℕ):ℝ) by norm_num, Real.rpow_natCast]
    rw [hrpow, hrpow2]
    have hw6 : Real.sqrt (r_isco / r) ^ 6 * r ^ 3 = r_isco ^ 3 := by
      have h6 : Real.sqrt (r_isco / r) ^ 6 = (r_isco / r) ^ 3 := by
        rw [show 6 = 2 * 3 by norm_num, pow_mul, hw2]
      rw [h6]
      field_simp
    have hval : (r ^ 3)⁻¹ * (1.0 - Real.sqrt (r_isco / r)) * (r_isco ^ 3 * 2.0)
        = 2 * Real.sqrt (r_isco / r) ^ 6 * (1 - Real.sqrt (r_isco / r)) := by
      rw [← hw6]
      field_simp
      ring
    rw [hval]
    exact novikov_bound_aux _ hw0 hw1

/-- C2 evidence: the first LUT sample (at r = r_ISCO) is exactly 0, the
profile vanishes below the ISCO, and every LUT sample is at most
93312/823543 < 1/8 — so the table's maximum is nowhere near 1, contradicting
the "peak ≈ 1 by construction" normalisation stated in the code comments. -/
theorem flux_lut_profile :
    (∀ r r_isco : ℝ, 0 < r_isco → r < r_isco →
       novikov_thorne_emissivity r r_isco = 0) ∧
    (∀ (r_max r_isco : ℝ) (n : Nat), 0 < r_isco → 0 < n →
       (generate_flux_lut r_isco r_max r_isco n)[0]? = some 0) ∧
    (∀ (r_min r_max r_isco : ℝ) (n : Nat), 0 < r_isco →
       ∀ v ∈ generate_flux_lut r_min r_max r_isco n, v ≤ 93312 / 823543) ∧
    (93312 / 823543 : ℝ) < 1 / 8 := by
  refine ⟨?_, ?_, ?_, by norm_num⟩
  · intro r r_isco _h hlt
    unfold novikov_thorne_emissivity
    rw [if_pos hlt]
  · intro r_max r_isco n h hn
    unfold generate_flux_lut
    rw [List.getElem?_map, List.getElem?_range hn]
    have hzero : novikov_thorne_emissivity (r_isco + (0:ℝ) / ((n - 1 : Nat) : ℝ)
        * (r_max - r_isco)) r_isco = 0 := by
      rw [zero_div, zero_mul, add_zero]
      unfold novikov_thorne_emissivity
      rw [if_neg (lt_irrefl r_isco), div_self h.ne']
      simp
      left
      right
      norm_num
    simpa using hzero
  · intro r_min r_max r_isco n h v hv
    unfold generate_flux_lut at hv
    obtain ⟨i, _hi, rfl⟩ := List.mem_map.mp hv
    exact novikov_thorne_emissivity_le _ _ h

/-- C2 witness: the Schwarzschild LUT of the repository's tests
(r ∈ [6, 20], 256 samples): first sample 0, all samples ≤ 93312/823543. -/
theorem flux_lut_profile_witness :
    (0:ℝ) < 6 ∧ 0 < 256 ∧
    (generate_flux_lut 6 20 6 256)[0]? = some 0 ∧
    (∀ v ∈ generate_flux_lut 6 20 6 256, v ≤ 93312 / 823543) :=
  ⟨by norm_num, by norm_num,
   flux_lut_profile.2.1 20 6 256 (by norm_num) (by norm_num),
   flux_lut_profile.2.2.1 6 20 6 256 (by norm_num)⟩

/-- Square-root interval bound from rational brackets on the radicand. -/
theorem sqrt_bracket {x l u : ℝ} (hl : 0 ≤ l) (hu : 0 ≤ u)
    (h1 : l ^ 2 ≤ x) (h2 : x ≤ u ^ 2) :
    l ≤ Real.sqrt x ∧ Real.sqrt x ≤ u := by
  constructor
  · calc l = Real.sqrt (l ^ 2) := (Real.sqrt_sq hl).symm
    _ ≤ Real.sqrt x := Real.sqrt_le_sqrt h1
  · calc Real.sqrt x ≤ Real.sqrt (u ^ 2) := Real.sqrt_le_sqrt h2
    _ = u := Real.sqrt_sq hu

/-- Lower cube-root bound: if l³ ≤ x with l ≥ 0 then l ≤ x^⅓. -/
theorem cbrt_le_of_cube_le {x l : ℝ} (hl : 0 ≤ l) (h : l ^ 3 ≤ x) :
    l ≤ x ^ ((1:ℝ)/3) := by
  have hid : ((l ^ (3:ℕ) : ℝ)) ^ ((1:ℝ)/3) = l := by
    rw [← Real.rpow_natCast l 3, ← Real.rpow_mul hl]
    norm_num
  calc l = ((l ^ (3:ℕ) : ℝ)) ^ ((1:ℝ)/3) := hid.symm
  _ ≤ x ^ ((1:ℝ)/3) := Real.rpow_le_rpow (pow_nonneg hl 3) h (by norm_num)

/-- Upper cube-root bound: if x ≤ u³ with x, u ≥ 0 then x^⅓ ≤ u. -/
theorem cbrt_le_of_le_cube {x u : ℝ} (hx : 0 ≤ x) (hu : 0 ≤ u) (h : x ≤ u ^ 3) :
    x ^ ((1:ℝ)/3) ≤ u := by
  have hid : ((u ^ (3:ℕ) : ℝ)) ^ ((1:ℝ)/3) = u := by
    rw [← Real.rpow_natCast u 3, ← Real.rpow_mul hu]
    norm_num
  calc x ^ ((1:ℝ)/3) ≤ ((u ^ (3:ℕ) : ℝ)) ^ ((1:ℝ)/3) :=
        Real.rpow_le_rpow hx h (by norm_num)
  _ = u := hid

/-- Interval bounds for Z₁ of the Bardeen–Press–Teukolsky formula at
a/M = 0.9: Z₁ = 1 + 0.19^⅓ (1.9^⅓ + 0.1^⅓) ∈ [1.978873, 1.978881]. -/
theorem z1_bounds_09 :
    (1.978873:ℝ) ≤
      1 + (19/100:ℝ) ^ ((1:ℝ)/3) * ((19/10:ℝ) ^ ((1:ℝ)/3) + (1/10:ℝ) ^ ((1:ℝ)/3)) ∧
    1 + (19/100:ℝ) ^ ((1:ℝ)/3) * ((19/10:ℝ) ^ ((1:ℝ)/3) + (1/10:ℝ) ^ ((1:ℝ)/3)) ≤
      1.978881 := by
  have hc1l : (0.574889:ℝ) ≤ (19/100:ℝ) ^ ((1:ℝ)/3) :=
    cbrt_le_of_cube_le (by norm_num) (by norm_num)
  have hc1u : (19/100:ℝ) ^ ((1:ℝ)/3) ≤ 0.574891 :=
    cbrt_le_of_le_cube (by norm_num) (by norm_num) (by norm_num)
  have hc2l : (1.238560:ℝ) ≤ (19/10:ℝ) ^ ((1:ℝ)/3) :=
    cbrt_le_of_cube_le (by norm_num) (by norm_num)
  have hc2u : (19/10:ℝ) ^ ((1:ℝ)/3) ≤ 1.238564 :=
    cbrt_le_of_le_cube (by norm_num) (by norm_num) (by norm_num)
  have hc3l : (0.464158:ℝ) ≤ (1/10:ℝ) ^ ((1:ℝ)/3) :=
    cbrt_le_of_cube_le (by norm_num) (by norm_num)
  have hc3u : (1/10:ℝ) ^ ((1:ℝ)/3) ≤ 0.464160 :=
    cbrt_le_of_le_cube (by norm_num) (by norm_num) (by norm_num)
  constructor <;> nlinarith [hc1l, hc1u, hc2l, hc2u, hc3l, hc3u]

/-- Interval evaluation of the BPT ISCO expression for a/M = 0.9, M = 1:
with Z₁ ∈ [1.978873, 1.978881], Z₂ = √(2.43 + Z₁²) and
W = √((3 − Z₁)(3 + Z₁ + 2Z₂)), the prograde value 3 + Z₂ − W is within
10⁻³ of 2.3209 and the retrograde value 3 + Z₂ + W within 10⁻³ of 8.7177. -/
theorem bpt09_core (z1 z2 w : ℝ)
    (hz1l : (1.978873:ℝ) ≤ z1) (hz1u : z1 ≤ 1.978881)
    (hz2 : z2 = Real.sqrt (243/100 + z1 * z1))
    (hw : w = Real.sqrt ((3 - z1) * (3 + z1 + 2 * z2))) :
    |3 + z2 + -w - 23209/10000| < 1/1000 ∧
    |3 + z2 + w - 87177/10000| < 1/1000 := by
  have hz2b : (2.519112:ℝ) ≤ z2 ∧ z2 ≤ 2.519128 := by
    rw [hz2]
    exact sqrt_bracket (by norm_num) (by norm_num) (by nlinarith) (by nlinarith)
  obtain ⟨hz2l, hz2u⟩ := hz2b
  have ht1l : (1.021119:ℝ) ≤ 3 - z1 := by linarith
  have ht1u : 3 - z1 ≤ 1.021127 := by linarith
  have ht2l : (10.017097:ℝ) ≤ 3 + z1 + 2 * z2 := by linarith
  have ht2u : 3 + z1 + 2 * z2 ≤ 10.017137 := by linarith
  have hpl : (10.228648:ℝ) ≤ (3 - z1) * (3 + z1 + 2 * z2) := by nlinarith
  have hpu : (3 - z1) * (3 + z1 + 2 * z2) ≤ 10.228770 := by nlinarith
  have hwb : (3.198215:ℝ) ≤ w ∧ w ≤ 3.198255 := by
    rw [hw]
    exact sqrt_bracket (by norm_num) (by norm_num) (by nlinarith) (by nlinarith)
  obtain ⟨hwl, hwu⟩ := hwb
  constructor
  · rw [abs_lt]
    constructor <;> linarith
  · rw [abs_lt]
    constructor <;> linarith

/-- C7: for M = 1, a = 0.9 the coded BPT formula lands within 10⁻³ of the
reference values 2.3209 (prograde) and 8.7177 (retrograde). -/
theorem isco_kerr_09_bpt :
    |BlackHole.isco_radius ⟨1, 0.9⟩ OrbitDirection.Prograde - 2.3209| < 1e-3 ∧
    |BlackHole.isco_radius ⟨1, 0.9⟩ OrbitDirection.Retrograde - 8.7177| < 1e-3 := by
  have habs : ¬ |(0.9:ℝ)| < 1e-10 := by
    rw [abs_of_nonneg (by norm_num : (0:ℝ) ≤ 0.9)]
    norm_num
  have hz1 := z1_bounds_09
  constructor
  · simp only [BlackHole.isco_radius]
    rw [if_neg habs]
    norm_num
    exact (bpt09_core _ _ _ hz1.1 hz1.2 rfl rfl).1
  · simp only [BlackHole.isco_radius]
    rw [if_neg habs]
    norm_num
    exact (bpt09_core _ _ _ hz1.1 hz1.2 rfl rfl).2

/-- Cosine and sine of the four-quadrant arctangent of a non-zero vector. -/
theorem cos_sin_atan2 (y x : ℝ) (h : 0 < x ^ 2 + y ^ 2) :
    Real.cos (atan2 y x) = x / Real.sqrt (x ^ 2 + y ^ 2) ∧
    Real.sin (atan2 y x) = y / Real.sqrt (x ^ 2 + y ^ 2) := by
  have hs : 0 < Real.sqrt (x ^ 2 + y ^ 2) := Real.sqrt_pos.mpr h
  unfold atan2
  split_ifs with hx hx2 hy hy2 hy3
  · -- 0 < x
    have hbase : Real.sqrt (1 + (y / x) ^ 2) = Real.sqrt (x ^ 2 + y ^ 2) / x := by
      have h1 : 1 + (y / x) ^ 2 = (Real.sqrt (x ^ 2 + y ^ 2) / x) ^ 2 := by
        rw [div_pow, div_pow, Real.sq_sqrt h.le]
        field_simp
      rw [h1, Real.sqrt_sq (by positivity)]
    constructor
    · rw [Real.cos_arctan, hbase, one_div_div]
    · rw [Real.sin_arctan, hbase]
      field_simp
  · -- x < 0, 0 ≤ y
    have hbase : Real.sqrt (1 + (y / x) ^ 2) = Real.sqrt (x ^ 2 + y ^ 2) / (-x) := by
      have h1 : 1 + (y / x) ^ 2 = (Real.sqrt (x ^ 2 + y ^ 2) / (-x)) ^ 2 := by
        rw [div_pow, div_pow, Real.sq_sqrt h.le, neg_sq]
        field_simp [hx2.ne]
      rw [h1, Real.sqrt_sq (div_nonneg (Real.sqrt_nonneg _) (by linarith))]
    constructor
    · rw [Real.cos_add_pi, Real.cos_arctan, hbase, one_div_div]
      field_simp
    · rw [Real.sin_add_pi, Real.sin_arctan, hbase]
      field_simp [hx2.ne]
      ring
  · -- x < 0, y < 0
    have hbase : Real.sqrt (1 + (y / x) ^ 2) = Real.sqrt (x ^ 2 + y ^ 2) / (-x) := by
      have h1 : 1 + (y / x) ^ 2 = (Real.sqrt (x ^ 2 + y ^ 2) / (-x)) ^ 2 := by
        rw [div_pow, div_pow, Real.sq_sqrt h.le, neg_sq]
        field_simp [hx2.ne]
      rw [h1, Real.sqrt_sq (div_nonneg (Real.sqrt_nonneg _) (by linarith))]
    constructor
    · rw [Real.cos_sub_pi, Real.cos_arctan, hbase, one_div_div]
      field_simp
    · rw [Real.sin_sub_pi, Real.sin_arctan, hbase]
      field_simp [hx2.ne]
      ring
  · -- x = 0, 0 < y
    have hx0 : x = 0 := le_antisymm (not_lt.mp hx) (not_lt.mp hx2)
    subst hx0
    constructor
    · rw [Real.cos_pi_div_two, zero_div]
    · rw [Real.sin_pi_div_two]
      rw [show (0:ℝ) ^ 2 + y ^ 2 = y ^ 2 by ring, Real.sqrt_sq hy2.le]
      rw [div_self hy2.ne']
  · -- x = 0, y < 0
    have hx0 : x = 0 := le_antisymm (not_lt.mp hx) (not_lt.mp hx2)
    subst hx0
    constructor
    · rw [Real.cos_neg, Real.cos_pi_div_two, zero_div]
    · rw [Real.sin_neg, Real.sin_pi_div_two]
      rw [show (0:ℝ) ^ 2 + y ^ 2 = y ^ 2 by ring, Real.sqrt_sq_eq_abs,
        abs_of_neg hy3, div_neg, div_self hy3.ne]
  · -- x = 0, y = 0: impossible
    have hx0 : x = 0 := le_antisymm (not_lt.mp hx) (not_lt.mp hx2)
    have hy0 : y = 0 := le_antisymm (not_lt.mp hy2) (not_lt.mp hy3)
    subst hx0
    subst hy0
    norm_num at h

/-- The four-quadrant arctangent is invariant under scaling the vector by a
positive factor. -/
theorem atan2_scale (c y x : ℝ) (hc : 0 < c) :
    atan2 (c * y) (c * x) = atan2 y x := by
  have hdiv : c * y / (c * x) = y / x := by
    rcases eq_or_ne x 0 with hx0 | hx0
    · subst hx0
      simp
    · field_simp
      ring
  have hpos : ∀ t : ℝ, 0 < c * t ↔ 0 < t := by
    intro t
    constructor
    · intro h
      by_contra h2
      push_neg at h2
      nlinarith
    · exact fun h => mul_pos hc h
  have hneg : ∀ t : ℝ, c * t < 0 ↔ t < 0 := by
    intro t
    constructor
    · intro h
      by_contra h2
      push_neg at h2
      nlinarith
    · exact fun h => mul_neg_of_pos_of_neg hc h
  have hle : ∀ t : ℝ, 0 ≤ c * t ↔ 0 ≤ t := by
    intro t
    constructor
    · intro h
      by_contra h2
      push_neg at h2
      nlinarith
    · exact fun h => mul_nonneg hc.le h
  unfold atan2
  simp only [hpos, hneg, hle, hdiv]

/-- Evaluation of `cartesian_to_bl` on the Cartesian image of a BL point:
r and θ are recovered exactly, and φ is reported as the four-quadrant
arctangent of the (y, x) components. -/
theorem cartesian_to_bl_of_bl (r θ φ a : ℝ) (hr0 : 0 < r) (hguard : 1e-10 < r)
    (hθ0 : 0 ≤ θ) (hθπ : θ ≤ Real.pi) :
    cartesian_to_bl (Real.sqrt (r * r + a * a) * Real.sin θ * Real.cos φ)
        (Real.sqrt (r * r + a * a) * Real.sin θ * Real.sin φ)
        (r * Real.cos θ) a
      = (r, θ,
         atan2 (Real.sqrt (r * r + a * a) * Real.sin θ * Real.sin φ)
               (Real.sqrt (r * r + a * a) * Real.sin θ * Real.cos φ)) := by
  have hss : Real.sqrt (r * r + a * a) * Real.sqrt (r * r + a * a) = r * r + a * a :=
    Real.mul_self_sqrt (by nlinarith [mul_self_nonneg r, mul_self_nonneg a])
  have eφ : Real.cos φ * Real.cos φ + Real.sin φ * Real.sin φ = 1 := by
    have h := Real.sin_sq_add_cos_sq φ
    nlinarith [h]
  have eθ : Real.sin θ * Real.sin θ + Real.cos θ * Real.cos θ = 1 := by
    have h := Real.sin_sq_add_cos_sq θ
    nlinarith [h]
  simp only [cartesian_to_bl]
  have hsum : Real.sqrt (r * r + a * a) * Real.sin θ * Real.cos φ *
        (Real.sqrt (r * r + a * a) * Real.sin θ * Real.cos φ) +
        Real.sqrt (r * r + a * a) * Real.sin θ * Real.sin φ *
        (Real.sqrt (r * r + a * a) * Real.sin θ * Real.sin φ) +
        r * Real.cos θ * (r * Real.cos θ) - a * a
      = r * r - a * a * (Real.cos θ * Real.cos θ) := by
    calc Real.sqrt (r * r + a * a) * Real.sin θ * Real.cos φ *
          (Real.sqrt (r * r + a * a) * Real.sin θ * Real.cos φ) +
          Real.sqrt (r * r + a * a) * Real.sin θ * Real.sin φ *
          (Real.sqrt (r * r + a * a) * Real.sin θ * Real.sin φ) +
          r * Real.cos θ * (r * Real.cos θ) - a * a
        = Real.sqrt (r * r + a * a) * Real.sqrt (r * r + a * a) *
            (Real.sin θ * Real.sin θ) *
            (Real.cos φ * Real.cos φ + Real.sin φ * Real.sin φ) +
            r * r * (Real.cos θ * Real.cos θ) - a * a := by ring
      _ = (r * r + a * a) * (Real.sin θ * Real.sin θ) * 1 +
            r * r * (Real.cos θ * Real.cos θ) - a * a := by rw [hss, eφ]
      _ = (r * r + a * a) * (Real.sin θ * Real.sin θ + Real.cos θ * Real.cos θ)
            - a * a * (Real.cos θ * Real.cos θ) - a * a := by ring
      _ = (r * r + a * a) * 1 - a * a * (Real.cos θ * Real.cos θ) - a * a := by
            rw [eθ]
      _ = r * r - a * a * (Real.cos θ * Real.cos θ) := by ring
  rw [hsum]
  have hdisc : (r * r - a * a * (Real.cos θ * Real.cos θ)) *
        (r * r - a * a * (Real.cos θ * Real.cos θ)) +
        4.0 * (a * a) * (r * Real.cos θ * (r * Real.cos θ))
      = (r * r + a * a * (Real.cos θ * Real.cos θ)) ^ 2 := by ring
  rw [hdisc, Real.sqrt_sq (by nlinarith [sq_nonneg (a * Real.cos θ), mul_pos hr0 hr0])]
  have hhalf : 0.5 * (r * r - a * a * (Real.cos θ * Real.cos θ) +
        (r * r + a * a * (Real.cos θ * Real.cos θ))) = r * r := by ring
  rw [hhalf, Real.sqrt_mul_self hr0.le, if_pos hguard]
  have hz : r * Real.cos θ / r = Real.cos θ := by
    field_simp
  rw [hz]
  have hclamp : clampR (Real.cos θ) (-1.0) 1.0 = Real.cos θ := by
    unfold clampR
    rw [show (1.0:ℝ) = 1 by norm_num,
      min_eq_left (Real.cos_le_one θ), max_eq_right (Real.neg_one_le_cos θ)]
  rw [hclamp, Real.arccos_cos hθ0 hθπ]

/-- C8 (amended): starting from Boyer–Lindquist data in the claimed ranges
(with r also above the 1e-10 arccos guard), the conversion recovers r and θ
exactly and the full Cartesian→BL→Cartesian round trip is exact (deviation
0 < 1e-10); the BL-side azimuth is only recovered modulo 2π (`atan2` lands in
(−π, π]), which is why the BL→Cartesian→BL φ component is not claimed. -/
theorem bl_roundtrip (m a r θ φ : ℝ) (_hm : 0 < m) (_ha0 : 0 ≤ a) (_ham : a < m)
    (_hr3 : 3 * m < r) (hguard : 1e-10 < r)
    (hθl : 0.05 ≤ θ) (hθu : θ ≤ Real.pi - 0.05)
    (_hφl : 0 ≤ φ) (_hφu : φ < 2 * Real.pi) :
    (cartesian_to_bl (bl_to_cartesian r θ φ a).1 (bl_to_cartesian r θ φ a).2.1
        (bl_to_cartesian r θ φ a).2.2 a).1 = r ∧
    (cartesian_to_bl (bl_to_cartesian r θ φ a).1 (bl_to_cartesian r θ φ a).2.1
        (bl_to_cartesian r θ φ a).2.2 a).2.1 = θ ∧
    bl_to_cartesian
        (cartesian_to_bl (bl_to_cartesian r θ φ a).1 (bl_to_cartesian r θ φ a).2.1
          (bl_to_cartesian r θ φ a).2.2 a).1
        (cartesian_to_bl (bl_to_cartesian r θ φ a).1 (bl_to_cartesian r θ φ a).2.1
          (bl_to_cartesian r θ φ a).2.2 a).2.1
        (cartesian_to_bl (bl_to_cartesian r θ φ a).1 (bl_to_cartesian r θ φ a).2.1
          (bl_to_cartesian r θ φ a).2.2 a).2.2 a
      = bl_to_cartesian r θ φ a := by
  have hr0 : 0 < r := lt_trans (by norm_num) hguard
  have hθ0 : 0 ≤ θ := by linarith
  have hθπ : θ ≤ Real.pi := by linarith
  have hθπlt : θ < Real.pi := by linarith
  have hbl : bl_to_cartesian r θ φ a =
      (Real.sqrt (r * r + a * a) * Real.sin θ * Real.cos φ,
       Real.sqrt (r * r + a * a) * Real.sin θ * Real.sin φ,
       r * Real.cos θ) := by
    simp only [bl_to_cartesian]
  rw [hbl]
  rw [show (Real.sqrt (r * r + a * a) * Real.sin θ * Real.cos φ,
       Real.sqrt (r * r + a * a) * Real.sin θ * Real.sin φ,
       r * Real.cos θ).1 = Real.sqrt (r * r + a * a) * Real.sin θ * Real.cos φ from rfl]
  rw [show (Real.sqrt (r * r + a * a) * Real.sin θ * Real.cos φ,
       Real.sqrt (r * r + a * a) * Real.sin θ * Real.sin φ,
       r * Real.cos θ).2.1 = Real.sqrt (r * r + a * a) * Real.sin θ * Real.sin φ from rfl]
  rw [show (Real.sqrt (r * r + a * a) * Real.sin θ * Real.cos φ,
       Real.sqrt (r * r + a * a) * Real.sin θ * Real.sin φ,
       r * Real.cos θ).2.2 = r * Real.cos θ from rfl]
  rw [cartesian_to_bl_of_bl r θ φ a hr0 hguard hθ0 hθπ]
  have hsθ : 0 < Real.sin θ :=
    Real.sin_pos_of_pos_of_lt_pi (by linarith) hθπlt
  have hS : 0 < Real.sqrt (r * r + a * a) :=
    Real.sqrt_pos.mpr (by nlinarith [mul_self_nonneg a, mul_pos hr0 hr0])
  have hc : 0 < Real.sqrt (r * r + a * a) * Real.sin θ := mul_pos hS hsθ
  have hscale : atan2 (Real.sqrt (r * r + a * a) * Real.sin θ * Real.sin φ)
      (Real.sqrt (r * r + a * a) * Real.sin θ * Real.cos φ)
      = atan2 (Real.sin φ) (Real.cos φ) := atan2_scale _ _ _ hc
  have htrig1 : Real.cos φ ^ 2 + Real.sin φ ^ 2 = 1 := Real.cos_sq_add_sin_sq φ
  have htrig : (0:ℝ) < Real.cos φ ^ 2 + Real.sin φ ^ 2 := by
    rw [htrig1]
    norm_num
  obtain ⟨hcos, hsin⟩ := cos_sin_atan2 (Real.sin φ) (Real.cos φ) htrig
  rw [htrig1, Real.sqrt_one, div_one] at hcos hsin
  refine ⟨rfl, rfl, ?_⟩
  simp only [bl_to_cartesian]
  rw [hscale, hcos, hsin]

/-- C8 witness: exact round trip at m = 1, a = 0, r = 10, θ = π/2, φ = 1. -/
theorem bl_roundtrip_witness :
    (cartesian_to_bl (bl_to_cartesian 10 (Real.pi/2) 1 0).1
        (bl_to_cartesian 10 (Real.pi/2) 1 0).2.1
        (bl_to_cartesian 10 (Real.pi/2) 1 0).2.2 0).1 = 10 ∧
    (cartesian_to_bl (bl_to_cartesian 10 (Real.pi/2) 1 0).1
        (bl_to_cartesian 10 (Real.pi/2) 1 0).2.1
        (bl_to_cartesian 10 (Real.pi/2) 1 0).2.2 0).2.1 = Real.pi/2 ∧
    bl_to_cartesian
        (cartesian_to_bl (bl_to_cartesian 10 (Real.pi/2) 1 0).1
          (bl_to_cartesian 10 (Real.pi/2) 1 0).2.1
          (bl_to_cartesian 10 (Real.pi/2) 1 0).2.2 0).1
        (cartesian_to_bl (bl_to_cartesian 10 (Real.pi/2) 1 0).1
          (bl_to_cartesian 10 (Real.pi/2) 1 0).2.1
          (bl_to_cartesian 10 (Real.pi/2) 1 0).2.2 0).2.1
        (cartesian_to_bl (bl_to_cartesian 10 (Real.pi/2) 1 0).1
          (bl_to_cartesian 10 (Real.pi/2) 1 0).2.1
          (bl_to_cartesian 10 (Real.pi/2) 1 0).2.2 0).2.2 0
      = bl_to_cartesian 10 (Real.pi/2) 1 0 :=
  bl_roundtrip 1 0 10 (Real.pi/2) 1 (by norm_num) le_rfl (by norm_num)
    (by norm_num) (by norm_num)
    (by nlinarith [Real.pi_gt_three]) (by nlinarith [Real.pi_gt_three])
    (by norm_num) (by nlinarith [Real.pi_gt_three])

/-- C8 counterexample: the inputs M = 1, a = 0, r = 10, θ = π/2, φ = 3π/2
satisfy every range condition of the claim, yet the BL→Cartesian→BL round
trip returns φ = −π/2, a deviation of 2π ≥ 1e-10 in the φ component
(`atan2` lands in (−π, π], not [0, 2π)). -/
theorem bl_roundtrip_counterexample :
    ((0:ℝ) < 1 ∧ (0:ℝ) ≤ 0 ∧ (0:ℝ) < 1 ∧ (3:ℝ) * 1 < 10 ∧
      (0.05:ℝ) ≤ Real.pi/2 ∧ Real.pi/2 ≤ Real.pi - 0.05 ∧
      (0:ℝ) ≤ 3 * Real.pi/2 ∧ 3 * Real.pi/2 < 2 * Real.pi) ∧
    (cartesian_to_bl (bl_to_cartesian 10 (Real.pi/2) (3 * Real.pi/2) 0).1
        (bl_to_cartesian 10 (Real.pi/2) (3 * Real.pi/2) 0).2.1
        (bl_to_cartesian 10 (Real.pi/2) (3 * Real.pi/2) 0).2.2 0).2.2
      = -(Real.pi/2) ∧
    ¬ |(-(Real.pi/2)) - 3 * Real.pi/2| < 1e-10 := by
  have hpi3 : (3:ℝ) < Real.pi := Real.pi_gt_three
  refine ⟨⟨by norm_num, le_rfl, by norm_num, by norm_num,
    by nlinarith, by nlinarith, by nlinarith, by nlinarith⟩, ?_, ?_⟩
  · have hsin32 : Real.sin (3 * Real.pi/2) = -1 := by
      rw [show (3 * Real.pi/2 : ℝ) = Real.pi/2 + Real.pi by ring,
        Real.sin_add_pi, Real.sin_pi_div_two]
    have hcos32 : Real.cos (3 * Real.pi/2) = 0 := by
      rw [show (3 * Real.pi/2 : ℝ) = Real.pi/2 + Real.pi by ring,
        Real.cos_add_pi, Real.cos_pi_div_two, neg_zero]
    have hbl : bl_to_cartesian 10 (Real.pi/2) (3 * Real.pi/2) 0 =
        ((0:ℝ), (-10:ℝ), (0:ℝ)) := by
      simp only [bl_to_cartesian]
      rw [Real.sin_pi_div_two, Real.cos_pi_div_two, hsin32, hcos32,
        show ((10:ℝ) * 10 + 0 * 0) = 10 ^ 2 by norm_num,
        Real.sqrt_sq (by norm_num : (0:ℝ) ≤ 10)]
      norm_num
    rw [hbl]
    show atan2 (-10) 0 = -(Real.pi/2)
    unfold atan2
    rw [if_neg (by norm_num), if_neg (by norm_num), if_neg (by norm_num),
      if_pos (by norm_num)]
  · rw [show (-(Real.pi/2) - 3 * Real.pi/2 : ℝ) = -(2 * Real.pi) by ring,
      abs_neg, abs_of_pos (by positivity)]
    push_neg
    nlinarith

end

end KerrSim
